import Mathlib

/-!
Verification of the AT2XT keyboard-bridge firmware against its
natural-language specification.  The Rust sources embedded here are
src/src/keybuffer.rs (KeycodeBuffer, KeyIn, KeyOut) and src/src/main.rs
(the PORT1 pin-interrupt handler and the two foreground transmitters).
Machine integers (u8, u16) are represented as Nat with explicit wrapping
(mod 256 / mod 65536) exactly where the Rust types wrap.
-/

namespace AT2XT

/-! ## KeycodeBuffer (src/src/keybuffer.rs lines 4-47)

Fields head, tail are u8 in the source; the 16-slot u16 array contents is
modelled as an index function Nat to Nat (every reachable access index is
below 16).  The critical-section token parameter of every method is a
zero-sized witness (`let _ = ctx;` in the source) and is erased here. -/

structure KeycodeBuffer where
  head : Nat
  tail : Nat
  contents : Nat → Nat

/-- KeycodeBuffer::new: head = 0, tail = 0, contents zeroed. -/
def KeycodeBuffer.new : KeycodeBuffer := ⟨0, 0, fun _ => 0⟩

/-- KeycodeBuffer::flush: tail = 0; head = 0. -/
def KeycodeBuffer.flush (s : KeycodeBuffer) : KeycodeBuffer :=
  { s with head := 0, tail := 0 }

/-- KeycodeBuffer::is_empty: (self.head - self.tail == 0) with u8 wrapping
subtraction, written (head + 256 - tail) mod 256 for head, tail < 256. -/
def KeycodeBuffer.is_empty (s : KeycodeBuffer) : Bool :=
  (s.head + 256 - s.tail) % 256 == 0

/-- KeycodeBuffer::put: contents[tail] = in_key; tail = (tail + 1) % 16.
No fullness check appears in the source (its TODO comment calls a full
buffer an abnormal condition worth a panic/reset). -/
def KeycodeBuffer.put (s : KeycodeBuffer) (in_key : Nat) : KeycodeBuffer :=
  { s with
    contents := fun i => if i = s.tail then in_key else s.contents i,
    tail := (s.tail + 1) % 16 }

/-- KeycodeBuffer::take: if is_empty none; else read contents[head],
head = (head + 1) % 16, return the slot. -/
def KeycodeBuffer.take (s : KeycodeBuffer) : Option Nat × KeycodeBuffer :=
  if s.is_empty then (none, s)
  else (some (s.contents s.head), { s with head := (s.head + 1) % 16 })

/-- Fold a list of frames into the buffer by consecutive put calls. -/
def KeycodeBuffer.put_all (s : KeycodeBuffer) (ks : List Nat) : KeycodeBuffer :=
  ks.foldl KeycodeBuffer.put s

/-! ## KeyIn (src/src/keybuffer.rs lines 50-94), receive shift register -/

structure KeyIn where
  pos : Nat
  contents : Nat
deriving DecidableEq

/-- KeyIn::new: pos = 0, contents = 0. -/
def KeyIn.new : KeyIn := ⟨0, 0⟩

/-- KeyIn::is_full: pos >= 11. -/
def KeyIn.is_full (s : KeyIn) : Bool := 11 ≤ s.pos

/-- KeyIn::clear: pos = 0; contents = 0. -/
def KeyIn.clear (_ : KeyIn) : KeyIn := ⟨0, 0⟩

/-- KeyIn::shift_in as written in src/src/keybuffer.rs lines 73-83:
contents = (contents << 1) | bit (u16, so mod 65536); pos = pos + 1.
It returns unit: there is no failure path and no bound check on pos. -/
def KeyIn.shift_in (s : KeyIn) (bit : Bool) : KeyIn :=
  ⟨s.pos + 1, ((s.contents <<< 1) % 65536) ||| (if bit then 1 else 0)⟩

/-- KeyIn::take: if not is_full none; else pos = 0 and return contents
(contents itself is not reset by take). -/
def KeyIn.take (s : KeyIn) : Option Nat × KeyIn :=
  if ¬ s.is_full then (none, s)
  else (some s.contents, ⟨0, s.contents⟩)

/-- Modelled from the spec: the KeyIn::shift_in that src/src/main.rs
compiles against is absent from src/ (main.rs calls
keyin.shift_in(bit).is_err(), but the shift_in in src/src/keybuffer.rs
returns unit, a stale revision).  Spec section 4.1: shift_in(bit) returns
Result((), Overfull) and fails if pos == 11, else shifts as in
KeyIn.shift_in.  none models the Err case, which leaves the register
unchanged. -/
def KeyIn.shift_in_checked (s : KeyIn) (bit : Bool) : Option KeyIn :=
  if s.pos = 11 then none else some (s.shift_in bit)

/-! ## KeyOut (src/src/keybuffer.rs lines 97-146), transmit shift register -/

structure KeyOut where
  pos : Nat
  contents : Nat
deriving DecidableEq

/-- KeyOut::new: pos = 10, contents = 0 (initialized empty). -/
def KeyOut.new : KeyOut := ⟨10, 0⟩

/-- KeyOut::is_empty: pos > 9. -/
def KeyOut.is_empty (s : KeyOut) : Bool := 9 < s.pos

/-- KeyOut::clear: pos = 10; contents = 0. -/
def KeyOut.clear (_ : KeyOut) : KeyOut := ⟨10, 0⟩

/-- KeyOut::shift_out as written in src/src/keybuffer.rs lines 121-128:
return (contents & 1) == 1; contents = contents >> 1; pos = pos + 1.
No bound check on pos and no emptiness test. -/
def KeyOut.shift_out (s : KeyOut) : Bool × KeyOut :=
  ((s.contents &&& 1) == 1, ⟨s.pos + 1, s.contents >>> 1⟩)

/-- Modelled from the spec: util::compute_parity lives in src/util.rs,
which is not under src/.  Spec section 4.2: parity is odd, the parity bit
is 1 iff popcount(byte) is even.  popcount of a u8 is the number of set
bits among bits 0..7. -/
def compute_parity (byte : Nat) : Bool :=
  ((List.range 8).countP (fun i => byte.testBit i)) % 2 == 0

/-- KeyOut::put: if not is_empty, Err; else contents =
byte | parity_bit | (1 << 9) with parity_bit = 1 << 8 when
compute_parity(byte), and pos = 0.  none models Err. -/
def KeyOut.put (s : KeyOut) (byte : Nat) : Option KeyOut :=
  if ¬ s.is_empty then none
  else some ⟨0, byte ||| (if compute_parity byte then 256 else 0) ||| 512⟩

/-! ## PORT1 pin-interrupt handler, receive branch
(src/src/main.rs lines 84-112, the HOST_MODE == false arm)

The handler runs on each AT_CLK falling edge.  Its pin and bus actions are
recorded as events.  try_borrow_mut on IN_BUFFER always succeeds in this
single-interrupt model.  The shift_in it calls is the Result-returning
KeyIn.shift_in_checked (see its doc comment): on Ok nothing else happens,
on Err the handler inhibits the bus, takes the captured frame, puts it
into the buffer, clears KEY_IN and idles the bus.  clear_at_clk_int runs
on every exit path. -/

inductive RxEvent where
  | at_inhibit
  | at_idle
  | clear_at_clk_int
deriving DecidableEq

def port1_receive (bit : Bool) (keyin : KeyIn) (buf : KeycodeBuffer) :
    KeyIn × KeycodeBuffer × List RxEvent :=
  match keyin.shift_in_checked bit with
  | some keyin2 => (keyin2, buf, [RxEvent.clear_at_clk_int])
  | none =>
    let t := keyin.take
    let buf2 := match t.1 with
      | some k => buf.put k
      | none => buf
    (t.2.clear, buf2,
      [RxEvent.at_inhibit, RxEvent.at_idle, RxEvent.clear_at_clk_int])

/-- Iterate the handler over a list of sampled AT_DATA bits, one falling
edge per list element (events discarded). -/
def port1_receive_run (bits : List Bool) (keyin : KeyIn)
    (buf : KeycodeBuffer) : KeyIn × KeycodeBuffer :=
  match bits with
  | [] => (keyin, buf)
  | b :: rest =>
    let r := port1_receive b keyin buf
    port1_receive_run rest r.1 r.2.1

/-! ## XT transmitter (src/src/main.rs lines 248-312)

send_byte_to_pc is a straight-line foreground routine; its externally
visible pin actions are recorded in order as a trace.  The host-release
wait loop runs an unknown number of iterations n in which XT_CLK or
XT_DATA is sampled low; the final iteration samples both high and switches
the XT lines to output. -/

inductive XtEvent where
  | sample_host_busy
  | xt_out
  | drive_data (bit : Bool)
  | clk_low
  | delay (us : Nat)
  | clk_high
  | xt_in
deriving DecidableEq

/-- send_xt_bit (lines 248-273): drive XT_DATA to the bit (set when
bit == 1, else unset), pull XT_CLK low, delay 55 us, release XT_CLK. -/
def send_xt_bit (bit : Nat) : List XtEvent :=
  [XtEvent.drive_data (bit == 1), XtEvent.clk_low, XtEvent.delay 55,
   XtEvent.clk_high]

/-- The data loop of send_byte_to_pc: k iterations of
send_xt_bit(byte & 0x01); byte >>= 1. -/
def send_xt_loop : Nat → Nat → List XtEvent
  | 0, _ => []
  | k + 1, byte => send_xt_bit (byte &&& 1) ++ send_xt_loop k (byte >>> 1)

/-- send_byte_to_pc (lines 275-312): wait for the host (n busy samples,
then xt_out), a 0 start bit, a 1 start bit, the 8 data bits LSB first,
then release the XT lines to input. -/
def send_byte_to_pc (byte : Nat) (n : Nat) : List XtEvent :=
  List.replicate n XtEvent.sample_host_busy ++ [XtEvent.xt_out]
    ++ send_xt_bit 0 ++ send_xt_bit 1 ++ send_xt_loop 8 byte
    ++ [XtEvent.xt_in]

/-- The sequence of data-bit values a trace drives onto XT_DATA. -/
def data_bits (t : List XtEvent) : List Bool :=
  t.filterMap (fun e => match e with
    | XtEvent.drive_data b => some b
    | _ => none)

/-! ## AT transmitter (src/src/main.rs lines 314-381)

send_byte_to_at_keyboard as an event trace.  KEY_OUT.put(byte) is the
first effect; on its Err the function propagates the error having stored
nothing (result none).  Then: disable the AT_CLK interrupt, wait for the
keyboard (n samples finding AT_CLK low, then one finding it high followed
by at_inhibit), delay 100 us, drive AT_DATA low (the start bit), delay
33 us, release AT_CLK (set high, switch to input), clear and enable the
AT_CLK interrupt, store HOST_MODE = true, store DEVICE_ACK = false, spin
until DEVICE_ACK is observed true, store HOST_MODE = false. -/

inductive AtEvent where
  | put_key_out (byte : Nat)
  | disable_clk_int
  | sample_clk_low
  | sample_clk_high_inhibit
  | delay (us : Nat)
  | drive_data_low
  | release_clk
  | clear_clk_int
  | enable_clk_int
  | store_host_mode (v : Bool)
  | store_device_ack (v : Bool)
  | observe_device_ack
deriving DecidableEq

/-- The effect trace of a successful send_byte_to_at_keyboard call, in
source order (n is the number of wait-loop iterations that found AT_CLK
low). -/
def at_send_trace (byte : Nat) (n : Nat) : List AtEvent :=
  [AtEvent.put_key_out byte, AtEvent.disable_clk_int]
    ++ List.replicate n AtEvent.sample_clk_low
    ++ [AtEvent.sample_clk_high_inhibit, AtEvent.delay 100,
        AtEvent.drive_data_low, AtEvent.delay 33,
        AtEvent.release_clk, AtEvent.clear_clk_int,
        AtEvent.enable_clk_int,
        AtEvent.store_host_mode true, AtEvent.store_device_ack false,
        AtEvent.observe_device_ack, AtEvent.store_host_mode false]

def send_byte_to_at_keyboard (byte : Nat) (key_out : KeyOut) (n : Nat) :
    Option (List AtEvent) :=
  match key_out.put byte with
  | none => none
  | some _ => some (at_send_trace byte n)

/-! ## Theorems -/

set_option maxRecDepth 8192 in
/-- Wrapped-or arithmetic for byte-range values: since a byte has no bits
at or above position 8, or-ing in the stop bit (512) or stop plus parity
(768) is plain addition. -/
theorem byte_lor_high_bits : ∀ b < 256, b ||| 512 = b + 512 ∧ b ||| 768 = b + 768 := by
  decide

/-- C1: the source KeycodeBuffer never checks fullness.  Evaluating the
code at the failing input: after 16 consecutive puts into a fresh buffer
the tail wraps onto the head, so the buffer reads as empty; after the
17th put the only frame take can reach is the 17th (written over slot 0),
and the next take returns none.  The first 16 frames are lost, not the
17th. -/
theorem buffer_seventeen_puts_yield_only_frame_17 :
    (KeycodeBuffer.new.put_all
        [1, 2, 3, 4, 5, 6, 7, 8, 9, 10, 11, 12, 13, 14, 15, 16]).is_empty = true ∧
    ((KeycodeBuffer.new.put_all
        [1, 2, 3, 4, 5, 6, 7, 8, 9, 10, 11, 12, 13, 14, 15, 16, 17]).take).1
      = some 17 ∧
    (((KeycodeBuffer.new.put_all
        [1, 2, 3, 4, 5, 6, 7, 8, 9, 10, 11, 12, 13, 14, 15, 16, 17]).take).2.take).1
      = none := by
  decide

/-- C3: the source shift registers do not preserve the claimed bounds.
Twelve shift_in calls on a fresh KeyIn drive pos to 12 > 11 (shift_in has
no failure path), and a single shift_out on a fresh KeyOut drives pos to
11 > 10. -/
theorem shift_register_bounds_violated :
    ¬ (((fun s => KeyIn.shift_in s false)^[12] KeyIn.new).pos ≤ 11) ∧
    ¬ ((KeyOut.new.shift_out).2.pos ≤ 10) := by
  decide

/-- C4 counterexample: put(0xFF) does not produce contents 0x02FF.
popcount(0xFF) = 8 is even, so the odd-parity bit is set and the contents
are 0x03FF. -/
theorem key_out_put_ff_not_02ff :
    ¬ ((KeyOut.new.put 0xFF).map KeyOut.contents = some 0x02FF) := by
  decide

/-- C4 (amended): a successful put on an empty KeyOut yields pos = 0 and
contents = byte + parity-bit (256 when popcount(byte) is even) + stop bit
(512); put on a non-empty register fails; and in particular put(0x00)
gives 0x0300, put(0x01) gives 0x0201, and put(0xFF) gives 0x03FF. -/
theorem key_out_put_formula (byte : Nat) (s : KeyOut) (hb : byte < 256) :
    (s.is_empty = true →
      s.put byte =
        some ⟨0, byte + ((if compute_parity byte then 256 else 0) + 512)⟩) ∧
    (s.is_empty = false → s.put byte = none) ∧
    KeyOut.new.put 0x00 = some ⟨0, 0x0300⟩ ∧
    KeyOut.new.put 0x01 = some ⟨0, 0x0201⟩ ∧
    KeyOut.new.put 0xFF = some ⟨0, 0x03FF⟩ := by
  refine ⟨?_, ?_, by decide, by decide, by decide⟩
  · intro he
    have hput : s.put byte =
        some ⟨0, byte ||| (if compute_parity byte then 256 else 0) ||| 512⟩ := by
      simp [KeyOut.put, he]
    rw [hput]
    by_cases hp : compute_parity byte
    · simp only [if_pos hp]
      rw [Nat.lor_assoc]
      have h768 : (256 : Nat) ||| 512 = 768 := by decide
      rw [h768, (byte_lor_high_bits byte hb).2]
    · simp only [if_neg hp]
      rw [Nat.lor_assoc]
      have h0 : (0 : Nat) ||| 512 = 512 := by decide
      rw [h0, (byte_lor_high_bits byte hb).1]
  · intro he
    simp [KeyOut.put, he]

/-- C4 witness: the amended formula evaluated at byte 0xAB on a fresh
(empty) register. -/
theorem key_out_put_formula_witness :
    KeyOut.new.put 0xAB =
      some ⟨0, 0xAB + ((if compute_parity 0xAB then 256 else 0) + 512)⟩ :=
  (key_out_put_formula 0xAB KeyOut.new (by decide)).1 (by decide)

/-- C9: single-producer single-consumer round trip.  From any empty state
with in-range indices, put(x) immediately followed by take returns x. -/
theorem buffer_put_take_roundtrip (x : Nat) (s : KeycodeBuffer)
    (hh : s.head < 16) (ht : s.tail < 16) (he : s.is_empty = true) :
    ((s.put x).take).1 = some x := by
  obtain ⟨h, t, f⟩ := s
  simp only [KeycodeBuffer.is_empty, beq_iff_eq] at he
  simp only at hh ht
  have hht : h = t := by omega
  have hne : ¬ ((h + 256 - (t + 1) % 16) % 256 = 0) := by omega
  simp only [KeycodeBuffer.put, KeycodeBuffer.take, KeycodeBuffer.is_empty]
  rw [if_neg (by simpa using hne)]
  simp [hht]

/-- C9 witness: put 42 into the fresh buffer, take it back. -/
theorem buffer_put_take_roundtrip_witness :
    ((KeycodeBuffer.new.put 42).take).1 = some 42 :=
  buffer_put_take_roundtrip 42 KeycodeBuffer.new (by decide) (by decide)
    (by decide)

/-- C10: is_empty is the wrapping u8 subtraction head - tail compared
with 0; it is total, and on every state with head, tail < 16 it returns
true exactly when head = tail, including the underflowing head < tail
case. -/
theorem buffer_is_empty_iff (s : KeycodeBuffer)
    (hh : s.head < 16) (ht : s.tail < 16) :
    (s.is_empty = true ↔ s.head = s.tail) := by
  simp only [KeycodeBuffer.is_empty, beq_iff_eq]
  omega

/-- C10 witness: a state with head 2 < tail 5, where the u8 subtraction
underflows, still reads as not empty. -/
theorem buffer_is_empty_iff_witness :
    ((⟨2, 5, fun _ => 0⟩ : KeycodeBuffer).is_empty = true ↔ 2 = 5) :=
  buffer_is_empty_iff ⟨2, 5, fun _ => 0⟩ (by decide) (by decide)

/-- C2 counterexample: eleven falling edges carrying a complete AT frame
(start 0, data bits of scancode 0x1C LSB first, parity 0, stop 1) into a
fresh KEY_IN leave the keycode buffer still empty and the register full
at pos = 11: the handler of src/src/main.rs does not deliver the frame in
the interrupt that shifts the 11th bit. -/
theorem port1_eleven_edges_no_delivery :
    (port1_receive_run
        [false, false, false, true, true, true, false, false, false, false,
         true] KeyIn.new KeycodeBuffer.new).1.pos = 11 ∧
    ((port1_receive_run
        [false, false, false, true, true, true, false, false, false, false,
         true] KeyIn.new KeycodeBuffer.new).2.take).1 = none := by
  decide

/-- C2 (amended): while KEY_IN is not yet full the handler only shifts
the sampled bit in; once a frame has filled KEY_IN (pos = 11), the next
falling edge (a 12th edge) finds shift_in failing, and in that interrupt
the handler inhibits the bus, takes the 11-bit frame, puts it into the
keycode buffer, clears KEY_IN, and returns the bus to idle; the 12th
edge's sampled bit is discarded. -/
theorem port1_receive_deferred_delivery (bit : Bool) (keyin : KeyIn)
    (buf : KeycodeBuffer) :
    (keyin.pos = 11 →
      port1_receive bit keyin buf =
        (⟨0, 0⟩, buf.put keyin.contents,
         [RxEvent.at_inhibit, RxEvent.at_idle, RxEvent.clear_at_clk_int])) ∧
    (keyin.pos ≠ 11 →
      port1_receive bit keyin buf =
        (keyin.shift_in bit, buf, [RxEvent.clear_at_clk_int])) := by
  constructor
  · intro h
    simp [port1_receive, KeyIn.shift_in_checked, h, KeyIn.take, KeyIn.is_full,
      KeyIn.clear]
  · intro h
    simp [port1_receive, KeyIn.shift_in_checked, h]

/-- C2 witness: the amended behavior evaluated at a full register holding
frame 225 and at a non-full register. -/
theorem port1_receive_deferred_delivery_witness :
    port1_receive false ⟨11, 225⟩ KeycodeBuffer.new =
      (⟨0, 0⟩, KeycodeBuffer.new.put 225,
       [RxEvent.at_inhibit, RxEvent.at_idle, RxEvent.clear_at_clk_int]) :=
  (port1_receive_deferred_delivery false ⟨11, 225⟩ KeycodeBuffer.new).1 rfl

/-- C6: in the interrupt in which the captured frame is taken (KEY_IN
full at pos = 11), take returns the frame contents and the handler then
clears the register: at handler exit both pos and contents are 0, so no
bits of the delivered frame remain when the next frame starts shifting
in. -/
theorem keyin_cleared_after_take (bit : Bool) (keyin : KeyIn)
    (buf : KeycodeBuffer) (hfull : keyin.pos = 11) :
    (keyin.take).1 = some keyin.contents ∧
    (port1_receive bit keyin buf).1.pos = 0 ∧
    (port1_receive bit keyin buf).1.contents = 0 := by
  refine ⟨?_, ?_, ?_⟩ <;>
    simp [KeyIn.take, KeyIn.is_full, hfull, port1_receive,
      KeyIn.shift_in_checked, KeyIn.clear]

/-- C6 witness: the handler evaluated at a full register holding frame
683. -/
theorem keyin_cleared_after_take_witness :
    (KeyIn.take ⟨11, 683⟩).1 = some 683 ∧
    (port1_receive true ⟨11, 683⟩ KeycodeBuffer.new).1.pos = 0 ∧
    (port1_receive true ⟨11, 683⟩ KeycodeBuffer.new).1.contents = 0 :=
  keyin_cleared_after_take true ⟨11, 683⟩ KeycodeBuffer.new rfl

/-- Appending traces appends their data-bit sequences. -/
theorem data_bits_append (t u : List XtEvent) :
    data_bits (t ++ u) = data_bits t ++ data_bits u := by
  simp [data_bits]

/-- One send_xt_bit drives exactly one data bit. -/
theorem data_bits_xt_bit (x : Nat) :
    data_bits (send_xt_bit x) = [x == 1] := by
  rfl

/-- Host-busy samples drive no data bits. -/
theorem data_bits_replicate_busy (n : Nat) :
    data_bits (List.replicate n XtEvent.sample_host_busy) = [] := by
  simp [data_bits]

/-- The lone xt_out action drives no data bit. -/
theorem data_bits_xt_out : data_bits [XtEvent.xt_out] = [] := by
  rfl

/-- The lone xt_in action drives no data bit. -/
theorem data_bits_xt_in : data_bits [XtEvent.xt_in] = [] := by
  rfl

/-- The data loop of send_byte_to_pc emits the k low-order bits of byte,
least significant first. -/
theorem data_bits_loop (k byte : Nat) :
    data_bits (send_xt_loop k byte) =
      (List.range k).map (fun i => byte.testBit i) := by
  induction k generalizing byte with
  | zero => rfl
  | succ k ih =>
    rw [List.range_succ_eq_map]
    simp only [send_xt_loop, data_bits_append, data_bits_xt_bit, ih,
      List.map_cons, List.map_map, List.singleton_append]
    have hhead : ((byte &&& 1) == 1) = byte.testBit 0 := by
      rcases Nat.mod_two_eq_zero_or_one byte with h | h <;>
        simp [Nat.and_one_is_mod, h]
    have htail : ∀ i, (byte >>> 1).testBit i = byte.testBit (i + 1) := by
      intro i
      rw [Nat.shiftRight_one, Nat.testBit_succ]
    rw [hhead]
    congr 1
    exact List.map_congr_left (fun i _ => htail i)

/-- C8: send_byte_to_pc first spends its wait iterations sampling the
host lines (n busy samples before anything is driven), then emits exactly
ten bits in order: a 0 start bit, a 1 start bit, and the eight data bits
of byte least-significant first; its last action returns the XT lines to
input. -/
theorem xt_send_frame_bits (byte n : Nat) :
    data_bits (send_byte_to_pc byte n) =
      false :: true :: (List.range 8).map (fun i => byte.testBit i) ∧
    (data_bits (send_byte_to_pc byte n)).length = 10 ∧
    (send_byte_to_pc byte n).take n =
      List.replicate n XtEvent.sample_host_busy ∧
    (send_byte_to_pc byte n).getLast? = some XtEvent.xt_in := by
  have hdb : data_bits (send_byte_to_pc byte n) =
      false :: true :: (List.range 8).map (fun i => byte.testBit i) := by
    simp only [send_byte_to_pc, List.append_assoc, data_bits_append,
      data_bits_replicate_busy, data_bits_xt_out, data_bits_xt_in,
      data_bits_xt_bit, data_bits_loop, List.nil_append]
    rfl
  refine ⟨hdb, ?_, ?_, ?_⟩
  · rw [hdb]; simp
  · simp only [send_byte_to_pc, List.append_assoc]
    exact List.take_left' (List.length_replicate n _)
  · simp only [send_byte_to_pc]
    exact List.getLast?_concat _

/-- C7: ordering of the AT transmitter effects.  If KEY_OUT is not empty
the put fails and the function stores nothing (in particular HOST_MODE is
never set).  Otherwise the trace splits as l1 followed by exactly
store HOST_MODE true, store DEVICE_ACK false, observe DEVICE_ACK,
store HOST_MODE false: the put of KEY_OUT, the AT clock interrupt clear
and re-enable all lie in l1 (before HOST_MODE goes true, with DEVICE_ACK
reset at the same point), no HOST_MODE or DEVICE_ACK store occurs earlier,
and HOST_MODE goes false only after DEVICE_ACK has been observed true. -/
theorem at_send_host_mode_ordering (byte n : Nat) (key_out : KeyOut) :
    (key_out.is_empty = false →
      send_byte_to_at_keyboard byte key_out n = none) ∧
    (key_out.is_empty = true →
      send_byte_to_at_keyboard byte key_out n = some (at_send_trace byte n) ∧
      ∃ l1,
        at_send_trace byte n = l1 ++
          AtEvent.store_host_mode true ::
          AtEvent.store_device_ack false ::
          AtEvent.observe_device_ack :: [AtEvent.store_host_mode false] ∧
        AtEvent.put_key_out byte ∈ l1 ∧
        AtEvent.clear_clk_int ∈ l1 ∧
        AtEvent.enable_clk_int ∈ l1 ∧
        (∀ v, AtEvent.store_host_mode v ∉ l1) ∧
        (∀ v, AtEvent.store_device_ack v ∉ l1)) := by
  constructor
  · intro he
    simp [send_byte_to_at_keyboard, KeyOut.put, he]
  · intro he
    have hk : send_byte_to_at_keyboard byte key_out n =
        some (at_send_trace byte n) := by
      simp [send_byte_to_at_keyboard, KeyOut.put, he]
    refine ⟨hk,
      [AtEvent.put_key_out byte, AtEvent.disable_clk_int]
        ++ List.replicate n AtEvent.sample_clk_low
        ++ [AtEvent.sample_clk_high_inhibit, AtEvent.delay 100,
            AtEvent.drive_data_low, AtEvent.delay 33,
            AtEvent.release_clk, AtEvent.clear_clk_int,
            AtEvent.enable_clk_int], ?_, ?_, ?_, ?_, ?_, ?_⟩
    · simp [at_send_trace]
    · simp
    · simp
    · simp
    · intro v
      simp [List.mem_replicate]
    · intro v
      simp [List.mem_replicate]

/-- C7 witness: the ordering evaluated for byte 0xED with an empty
KEY_OUT and no wait iterations. -/
theorem at_send_host_mode_ordering_witness :
    send_byte_to_at_keyboard 0xED KeyOut.new 0 =
      some (at_send_trace 0xED 0) ∧
    ∃ l1,
      at_send_trace 0xED 0 = l1 ++
        AtEvent.store_host_mode true ::
        AtEvent.store_device_ack false ::
        AtEvent.observe_device_ack :: [AtEvent.store_host_mode false] ∧
      AtEvent.put_key_out 0xED ∈ l1 ∧
      AtEvent.clear_clk_int ∈ l1 ∧
      AtEvent.enable_clk_int ∈ l1 ∧
      (∀ v, AtEvent.store_host_mode v ∉ l1) ∧
      (∀ v, AtEvent.store_device_ack v ∉ l1) :=
  (at_send_host_mode_ordering 0xED 0 KeyOut.new).2 (by decide)

end AT2XT
